import Mathlib

/-!
# Verification of the Balloons & Blazes scene-assembly pipeline

Shallow embedding of `src/server/index.js`.  JavaScript numbers are
modelled by `JSNum`: a finite value is an exact rational (all arithmetic
the pipeline performs on coordinates — `Math.min`, `Math.max`, adding or
subtracting the margin `1` — is exact on the values involved, so the
rational semantics is faithful), and the non-finite values `NaN`,
`Infinity` and `-Infinity` are explicit constructors, since
`typeof x === "number"` is true for them.  Timestamps are embedded as
their millisecond epoch values (an `Int`): `toISOString` followed by
`new Date(...)` round-trips the exact millisecond value, so comparing the
ISO strings through `new Date` is the same as comparing the integers.
The transcendental haversine formula is given its exact real-number
semantics for the algebraic claims about it.
-/

namespace BalloonsBlazes

/-- A JavaScript number: `typeof x === "number"` holds for every
constructor; only `finite` values satisfy `Number.isFinite`. -/
inductive JSNum where
  | finite (q : ℚ)
  | nan
  | posInf
  | negInf
deriving DecidableEq

/-- A JavaScript value as it can appear as an array element or object
field of a feed record.  `other` stands for composite values (nested
arrays/objects): their `typeof` is not `"number"` and no claim observes
them further. -/
inductive JSVal where
  | num (n : JSNum)
  | str (s : String)
  | bool (b : Bool)
  | null
  | undefined
  | other
deriving DecidableEq

/-- `typeof v === "number"`. -/
def isJSNumber : JSVal → Bool
  | .num _ => true
  | _ => false

/-- `typeof v === "number" && Number.isFinite(v)`. -/
def isFiniteNumber : JSVal → Bool
  | .num (.finite _) => true
  | _ => false

/-- `true` unless the value is a non-finite number.  JSON (`res.json()`)
can only produce values satisfying this predicate: JSON has no `NaN`,
`Infinity` or `-Infinity` literal. -/
def jsonRepresentable : JSVal → Bool
  | .num (.finite _) => true
  | .num _ => false
  | _ => true

/-- The nullish-coalescing operator `a ?? b`. -/
def jsCoalesce (a b : JSVal) : JSVal :=
  match a with
  | .null => b
  | .undefined => b
  | v => v

/-- `String(n)` on a number.  The exact decimal rendering JavaScript uses
for finite doubles is abstracted to the rational's `toString`; no claim
observes the rendered text of a numeric id. -/
def jsNumToString : JSNum → String
  | .finite q => toString q
  | .nan => "NaN"
  | .posInf => "Infinity"
  | .negInf => "-Infinity"

/-- `String(v)` for the values that can reach the id conversion. -/
def jsToString : JSVal → String
  | .num n => jsNumToString n
  | .str s => s
  | .bool b => if b then "true" else "false"
  | .null => "null"
  | .undefined => "undefined"
  | .other => "[object Object]"

/-- `Math.min` on JavaScript numbers (`NaN` absorbs). -/
def jsMin : JSNum → JSNum → JSNum
  | .nan, _ => .nan
  | _, .nan => .nan
  | .negInf, _ => .negInf
  | _, .negInf => .negInf
  | .posInf, y => y
  | x, .posInf => x
  | .finite a, .finite b => .finite (min a b)

/-- `Math.max` on JavaScript numbers (`NaN` absorbs). -/
def jsMax : JSNum → JSNum → JSNum
  | .nan, _ => .nan
  | _, .nan => .nan
  | .posInf, _ => .posInf
  | _, .posInf => .posInf
  | .negInf, y => y
  | x, .negInf => x
  | .finite a, .finite b => .finite (max a b)

/-- JavaScript `+` on numbers. -/
def jsAdd : JSNum → JSNum → JSNum
  | .nan, _ => .nan
  | _, .nan => .nan
  | .posInf, .negInf => .nan
  | .negInf, .posInf => .nan
  | .posInf, _ => .posInf
  | _, .posInf => .posInf
  | .negInf, _ => .negInf
  | _, .negInf => .negInf
  | .finite a, .finite b => .finite (a + b)

/-- JavaScript unary minus on numbers. -/
def jsNeg : JSNum → JSNum
  | .finite q => .finite (-q)
  | .nan => .nan
  | .posInf => .negInf
  | .negInf => .posInf

/-- JavaScript `-` on numbers. -/
def jsSub (a b : JSNum) : JSNum := jsAdd a (jsNeg b)

/-- JavaScript `<` on numbers (`NaN` compares false to everything). -/
def jsLt : JSNum → JSNum → Bool
  | .nan, _ => false
  | _, .nan => false
  | .negInf, .negInf => false
  | .negInf, _ => true
  | _, .negInf => false
  | .posInf, _ => false
  | .finite _, .posInf => true
  | .finite a, .finite b => a < b

/-- JavaScript `<=` on numbers (`NaN` compares false to everything). -/
def jsLe : JSNum → JSNum → Bool
  | .nan, _ => false
  | _, .nan => false
  | .negInf, _ => true
  | _, .negInf => false
  | _, .posInf => true
  | .posInf, .finite _ => false
  | .finite a, .finite b => a ≤ b

/-- A normalized observation, the output of `normalizePoint`.
`lat`/`lon` keep the `JSNum` the feed supplied (the code only checks
`typeof`, so non-finite numbers pass through); `altitude` is `none` when
the code stores `null`; `timestamp` is the millisecond epoch value whose
ISO rendering the code stores. -/
structure Point where
  id : String
  lat : JSNum
  lon : JSNum
  altitude : Option JSNum
  timestamp : Int
deriving DecidableEq

/-- A raw feed record as `normalizePoint` receives it.
`arr` is a JavaScript array (`Array.isArray` true); `obj` is any
non-array value on which property access succeeds, described by the
seven properties the code reads (a missing property reads as
`undefined`; primitives behave the same way); `nullish` is `null` or
`undefined`, on which property access throws (caught by the
`try`/`catch`). -/
inductive RawRecord where
  | arr (elems : List JSVal)
  | obj (id lat latitude lon longitude alt altitude : JSVal)
  | nullish
deriving DecidableEq

/-- `typeof v === "number" ? v : null` applied to the altitude value. -/
def jsNumOrNull : JSVal → Option JSNum
  | .num n => some n
  | _ => none

/-- `normalizePoint(raw, timestamp, index)` from `src/server/index.js`
lines 45–77.  Array destructuring reads missing elements as
`undefined`; the object branch coalesces the alternative field names and
checks only `typeof` of the two coordinates. -/
def normalizePoint (raw : RawRecord) (timestamp : Int) (index : ℕ) :
    Option Point :=
  match raw with
  | .arr elems =>
    let lat := elems.getD 0 .undefined
    let lon := elems.getD 1 .undefined
    let altitude := elems.getD 2 .undefined
    match lat, lon with
    | .num la, .num lo =>
      some { id := "balloon-" ++ toString index, lat := la, lon := lo,
             altitude := jsNumOrNull altitude, timestamp := timestamp }
    | _, _ => none
  | .nullish => none
  | .obj oid olat olatitude olon olongitude oalt oaltitude =>
    let id := jsCoalesce oid (.str ("balloon-" ++ toString index))
    let lat := jsCoalesce olat olatitude
    let lon := jsCoalesce olon olongitude
    let altitude := jsCoalesce oalt (jsCoalesce oaltitude .null)
    match lat, lon with
    | .num la, .num lo =>
      some { id := jsToString id, lat := la, lon := lo,
             altitude := jsNumOrNull altitude, timestamp := timestamp }
    | _, _ => none

/-- The spec's acceptance condition with the finiteness requirement it
states: the record supplies two *finite* numeric coordinates via one of
the accepted shapes.  (Stated from the spec's words, to be compared with
what `normalizePoint` actually checks.) -/
def suppliesFiniteCoords : RawRecord → Bool
  | .arr elems =>
    isFiniteNumber (elems.getD 0 .undefined) &&
      isFiniteNumber (elems.getD 1 .undefined)
  | .obj _ olat olatitude olon olongitude _ _ =>
    isFiniteNumber (jsCoalesce olat olatitude) &&
      isFiniteNumber (jsCoalesce olon olongitude)
  | .nullish => false

/-- What the code actually requires: two values of `typeof` `"number"`
(finite or not) via one of the accepted shapes. -/
def suppliesNumericCoords : RawRecord → Bool
  | .arr elems =>
    isJSNumber (elems.getD 0 .undefined) &&
      isJSNumber (elems.getD 1 .undefined)
  | .obj _ olat olatitude olon olongitude _ _ =>
    isJSNumber (jsCoalesce olat olatitude) &&
      isJSNumber (jsCoalesce olon olongitude)
  | .nullish => false

/-- Every value the record carries is JSON-representable (no `NaN`,
`Infinity` or `-Infinity`), as is the case for every record produced by
`res.json()`. -/
def recordFromJSON : RawRecord → Bool
  | .arr elems => elems.all jsonRepresentable
  | .obj oid olat olatitude olon olongitude oalt oaltitude =>
    jsonRepresentable oid && jsonRepresentable olat &&
      jsonRepresentable olatitude && jsonRepresentable olon &&
      jsonRepresentable olongitude && jsonRepresentable oalt &&
      jsonRepresentable oaltitude
  | .nullish => true

/-- The index-kept test `i % every === 0` of the downsampling filter.
In JavaScript `i % 0` is `NaN`, and `NaN === 0` is false, so `every = 0`
keeps no index. -/
def jsModZero (i every : ℕ) : Bool :=
  if every = 0 then false else i % every = 0

/-- `downsample(arr, every = 3)` from `src/server/index.js` lines 80–83:
tracks of at most 3 points are returned unchanged, otherwise the indices
divisible by `every` are retained. -/
def downsample {α : Type} (arr : List α) (every : ℕ) : List α :=
  if arr.length ≤ 3 then arr
  else (arr.enum.filter (fun p => jsModZero p.1 every)).map Prod.snd

/-- One reconstructed flight, before fire correlation.  `latest` is
`points[points.length - 1]` — `Option` because indexing past the end of
an empty array would read `undefined`. -/
structure Flight where
  id : String
  latest : Option Point
  track : List Point
deriving DecidableEq

/-- The comparator of `points.sort((a, b) => new Date(a.timestamp) -
new Date(b.timestamp))`: ascending by timestamp. -/
def tsLE (a b : Point) : Prop := a.timestamp ≤ b.timestamp

instance : DecidableRel tsLE := fun _ _ => Int.decLe _ _

instance : IsTotal Point tsLE := ⟨fun _ _ => Int.le_total _ _⟩

instance : IsTrans Point tsLE := ⟨fun _ _ _ => Int.le_trans⟩

/-- The `histories` map: a JavaScript `Map` keyed by point id, in
insertion order, each entry holding the pushed points in push order. -/
abbrev Histories : Type := List (String × List Point)

/-- `histories.get(pt.id).push(pt)`, creating the entry on first use
(`Map` iteration order is insertion order, so a new key goes to the
end). -/
def pushPoint : Histories → Point → Histories
  | [], pt => [(pt.id, [pt])]
  | (k, v) :: rest, pt =>
    if k = pt.id then (k, v ++ [pt]) :: rest
    else (k, v) :: pushPoint rest pt

/-- Processing one hour's snapshot (`snapshots.forEach` body, lines
97–109): skipped entirely unless the fetch yielded an array; otherwise
every record is normalized with the derived timestamp `now - hour * 1h`
and each resulting point is pushed onto its history. -/
def addSnapshot (now : Int) (hist : Histories) (hour : ℕ)
    (snapshot : Option (List RawRecord)) : Histories :=
  match snapshot with
  | none => hist
  | some records =>
    let timestamp : Int := now - hour * 3600000
    records.enum.foldl (fun h iraw =>
      match normalizePoint iraw.2 timestamp iraw.1 with
      | none => h
      | some pt => pushPoint h pt) hist

/-- The merge phase of `loadBalloonFlights`: fold the 24 snapshots (in
hour order) into the `histories` map.  A fetch that failed, or whose
body was not an array, is `none`. -/
def buildHistories (snapshots : List (Option (List RawRecord)))
    (now : Int) : Histories :=
  snapshots.enum.foldl (fun h hs => addSnapshot now h hs.1 hs.2) []

/-- Phase 3 of `loadBalloonFlights` (lines 112–121): sort each history
ascending by timestamp, take `latest` from the *sorted* array's last
slot, and downsample the sorted array into the track. -/
def loadBalloonFlights (snapshots : List (Option (List RawRecord)))
    (now : Int) : List Flight :=
  (buildHistories snapshots now).map (fun kv =>
    { id := kv.1,
      latest := (List.insertionSort tsLE kv.2).getLast?,
      track := downsample (List.insertionSort tsLE kv.2) 3 })

/-- One parsed hotspot detection.  `fetchFires` discards rows whose
coordinates fail `parseFloat`/`isNaN`, so parsed fires carry plain
numbers; the remaining CSV fields pass through uninterpreted. -/
structure Fire where
  lat : ℚ
  lon : ℚ
  brightness : Option ℚ
  confidence : Option String
  acq_date : Option String
  acq_time : Option String
  satellite : Option String
deriving DecidableEq

/-- The four running extrema of `computeBounds`' scan, and the returned
bounding region. -/
structure Bounds where
  minLat : JSNum
  maxLat : JSNum
  minLon : JSNum
  maxLon : JSNum
deriving DecidableEq

/-- One iteration of the inner loop of `computeBounds` (lines 134–141). -/
def boundsStep (acc : Bounds) (p : Point) : Bounds :=
  { minLat := jsMin acc.minLat p.lat,
    maxLat := jsMax acc.maxLat p.lat,
    minLon := jsMin acc.minLon p.lon,
    maxLon := jsMax acc.maxLon p.lon }

/-- The initial extrema `minLat = 90, maxLat = -90, minLon = 180,
maxLon = -180` of lines 129–132. -/
def scanInit : Bounds :=
  { minLat := .finite 90, maxLat := .finite (-90),
    minLon := .finite 180, maxLon := .finite (-180) }

/-- The scan phase of `computeBounds` (lines 129–141): every track
point of every flight is folded into the running extrema. -/
def scanBounds (flights : List Flight) : Bounds :=
  flights.foldl (fun a f => f.track.foldl boundsStep a) scanInit

/-- `computeBounds(flights)` from lines 128–150: the scan above, then
padding by the margin `1` and the one-sided clamps to `-89`/`89` and
`-179`/`179`. -/
def computeBounds (flights : List Flight) : Bounds :=
  { minLat := jsMax (jsSub (scanBounds flights).minLat (.finite 1))
      (.finite (-89)),
    maxLat := jsMin (jsAdd (scanBounds flights).maxLat (.finite 1))
      (.finite 89),
    minLon := jsMax (jsSub (scanBounds flights).minLon (.finite 1))
      (.finite (-179)),
    maxLon := jsMin (jsAdd (scanBounds flights).maxLon (.finite 1))
      (.finite 179) }

/-- The spec's open-box hypothesis on one point: both coordinates are
numbers strictly inside the valid geographic range (expressed with the
JavaScript comparison, so non-finite coordinates fail it). -/
def pointInOpenBox (p : Point) : Bool :=
  jsLt (.finite (-90)) p.lat && jsLt p.lat (.finite 90) &&
    jsLt (.finite (-180)) p.lon && jsLt p.lon (.finite 180)

/-- The spec's well-formedness of a BoundingRegion: `minLat < maxLat`,
`minLon < maxLon`, and every component within `[-89, 89]` resp.
`[-179, 179]` (the clamped valid range the code aims for). -/
def boundsWellFormed (b : Bounds) : Bool :=
  jsLt b.minLat b.maxLat && jsLt b.minLon b.maxLon &&
    jsLe (.finite (-89)) b.minLat && jsLe b.minLat (.finite 89) &&
    jsLe (.finite (-89)) b.maxLat && jsLe b.maxLat (.finite 89) &&
    jsLe (.finite (-179)) b.minLon && jsLe b.minLon (.finite 179) &&
    jsLe (.finite (-179)) b.maxLon && jsLe b.maxLon (.finite 179)

/-- Invariant of the `computeBounds` scan: all four extrema are finite
and inside the bands the initial values `(90, -90, 180, -180)` pin
down. -/
def AccInv (b : Bounds) : Prop :=
  ∃ a c e g : ℚ,
    b = { minLat := .finite a, maxLat := .finite c,
          minLon := .finite e, maxLon := .finite g } ∧
      -90 < a ∧ a ≤ 90 ∧ -90 ≤ c ∧ c < 90 ∧
      -180 < e ∧ e ≤ 180 ∧ -180 ≤ g ∧ g < 180

/-- After at least one in-range point has been scanned, the extrema are
strictly inside the valid range and ordered. -/
def AccStrong (b : Bounds) : Prop :=
  ∃ a c e g : ℚ,
    b = { minLat := .finite a, maxLat := .finite c,
          minLon := .finite e, maxLon := .finite g } ∧
      -90 < a ∧ a < 90 ∧ -90 < c ∧ c < 90 ∧ a ≤ c ∧
      -180 < e ∧ e < 180 ∧ -180 < g ∧ g < 180 ∧ e ≤ g

/-- The `fire_summary` attached by the correlator. -/
structure FireSummary where
  min_distance_km : Option ℚ
  closest_fire : Option Fire
deriving DecidableEq

/-- A Flight with its `fire_summary` (the `{...f, fire_summary}` spread
of `summarizeFlights`). -/
structure SummFlight where
  id : String
  latest : Option Point
  track : List Point
  fire_summary : FireSummary
deriving DecidableEq

/-- The inner loop of `summarizeFlights` (lines 221–231): `minDist`
starts at `Infinity` and `closest` at `null`; the accumulator is `none`
exactly while `minDist` is still `Infinity` (both variables are updated
together).  The final `isFinite(minDist) ? minDist : null` is therefore
the first projection of the result.  `dist` is the flight-to-fire
distance function; the floating-point `haversineKm` the code passes is
abstracted to an arbitrary exact-valued function, since no claim about
the correlator depends on distance values (the real-number semantics of
the formula itself is `haversineKm` below). -/
def closestFire (dist : Fire → ℚ) (fires : List Fire) :
    Option (ℚ × Fire) :=
  fires.foldl (fun acc fire =>
    match acc with
    | none => some (dist fire, fire)
    | some mc =>
      if dist fire < mc.1 then some (dist fire, fire) else some mc)
    none

/-- `summarizeFlights(flights, fires)` from lines 219–241.  The
JavaScript body dereferences `f.latest.lat`; on a flight whose `latest`
is `undefined` that throws a `TypeError`, modelled by the whole call
returning `none` (the exception propagates out of the `map`). -/
def summarizeFlights (dist : Point → Fire → ℚ) :
    List Flight → List Fire → Option (List SummFlight)
  | [], _ => some []
  | f :: fs, fires =>
    match f.latest with
    | none => none
    | some latest =>
      match summarizeFlights dist fs fires with
      | none => none
      | some rest =>
        let r := closestFire (fun fire => dist latest fire) fires
        some ({ id := f.id, latest := f.latest, track := f.track,
                fire_summary :=
                  { min_distance_km := r.map Prod.fst,
                    closest_fire := r.map Prod.snd } } :: rest)

/-- The assembled scene.  `generated_at` is an `Option` because the
no-flights early return of `buildScene` builds the object without that
field (reading it then yields `undefined`). -/
structure Scene where
  flights : List SummFlight
  fires : List Fire
  bounds : Option Bounds
  generated_at : Option Int
deriving DecidableEq

/-- `buildScene()` from lines 250–264.  The two network effects are
parameters: `snapshots` is what the 24 parallel hour fetches returned,
and `fireFeed` is what `fetchFires` returns for the bounds it is given.
`buildTime` is the clock value `new Date()` reads for `generated_at`.
A `TypeError` escaping `summarizeFlights` rejects the promise, modelled
by `none`. -/
def buildScene (snapshots : List (Option (List RawRecord)))
    (now buildTime : Int) (fireFeed : Bounds → List Fire)
    (dist : Point → Fire → ℚ) : Option Scene :=
  let flights := loadBalloonFlights snapshots now
  if flights.isEmpty then
    some { flights := [], fires := [], bounds := none,
           generated_at := none }
  else
    let bounds := computeBounds flights
    let fires := fireFeed bounds
    match summarizeFlights dist flights fires with
    | none => none
    | some fs =>
      some { flights := fs, fires := fires, bounds := some bounds,
             generated_at := some buildTime }

/-- The module-level cache (lines 247–248): `cachedScene` starts `null`
and `lastSceneTime` starts `0`. -/
structure CacheState where
  cachedScene : Option Scene
  lastSceneTime : Int
deriving DecidableEq

/-- The 5-minute TTL `5 * 60 * 1000` in milliseconds. -/
def sceneTTL : Int := 5 * 60 * 1000

/-- What the `/api/scene` route sends back: the scene as JSON, or the
500 `{error: "Failed to build scene"}` response. -/
inductive SceneResponse where
  | ok (s : Scene)
  | error500
deriving DecidableEq

/-- The `/api/scene` handler (lines 270–287) for a single request.
`now` is the `Date.now()` read at entry; `build` is the outcome the
`buildScene()` call would produce (a parameter because it depends on
network I/O), `none` meaning the awaited promise rejected, which lands
in the `catch`.  Returns the response together with the cache state
after the request; both cache variables are assigned back-to-back with
no interleaving point, so a rebuild replaces the cache atomically and a
caught failure leaves it untouched. -/
def handleSceneRequest (st : CacheState) (now : Int)
    (build : Option Scene) : SceneResponse × CacheState :=
  let rebuilt : SceneResponse × CacheState :=
    match build with
    | some scene =>
      (.ok scene, { cachedScene := some scene, lastSceneTime := now })
    | none => (.error500, st)
  match st.cachedScene with
  | some s =>
    if now - st.lastSceneTime < sceneTTL then (.ok s, st) else rebuilt
  | none => rebuilt

/-- `Math.atan2(y, x)`, which agrees with the argument of the complex
number `x + y·i`. -/
noncomputable def jsAtan2 (y x : ℝ) : ℝ := Complex.arg ⟨x, y⟩

/-- `haversineKm(lat1, lon1, lat2, lon2)` from lines 206–217, read over
the exact reals: Earth radius 6371 km, degree inputs converted to
radians, kilometre output. -/
noncomputable def haversineKm (lat1 lon1 lat2 lon2 : ℝ) : ℝ :=
  let R : ℝ := 6371
  let toRad : ℝ → ℝ := fun d => d * Real.pi / 180
  let dLat := toRad (lat2 - lat1)
  let dLon := toRad (lon2 - lon1)
  let a := Real.sin (dLat / 2) ^ 2 +
    Real.cos (toRad lat1) * Real.cos (toRad lat2) *
      Real.sin (dLon / 2) ^ 2
  R * 2 * jsAtan2 (Real.sqrt a) (Real.sqrt (1 - a))

/-- A concrete point used by witnesses. -/
def wPoint : Point :=
  { id := "a", lat := .finite 1, lon := .finite 2, altitude := none,
    timestamp := 0 }

/-- A concrete flight used by witnesses. -/
def wFlight : Flight := { id := "a", latest := some wPoint, track := [wPoint] }

/-- The summarized form of `wFlight` against an empty fire set. -/
def wSummFlight : SummFlight :=
  { id := "a", latest := some wPoint, track := [wPoint],
    fire_summary := { min_distance_km := none, closest_fire := none } }

/-- One hourly snapshot carrying a single well-formed tuple record. -/
def wSnap : Option (List RawRecord) :=
  some [RawRecord.arr [.num (.finite 10), .num (.finite 20)]]

/-- A one-hour feed: a single balloon observed once. -/
def wSnaps : List (Option (List RawRecord)) := [wSnap]

/-- The point `loadBalloonFlights wSnaps 0` reconstructs. -/
def wPointB : Point :=
  { id := "balloon-0", lat := .finite 10, lon := .finite 20,
    altitude := none, timestamp := 0 }

/-- The flight `loadBalloonFlights wSnaps 0` reconstructs. -/
def wFlightB : Flight :=
  { id := "balloon-0", latest := some wPointB, track := [wPointB] }

/-- A point at the geographic south pole — a valid coordinate. -/
def southPolePoint : Point :=
  { id := "s", lat := .finite (-90), lon := .finite 0, altitude := none,
    timestamp := 0 }

/-- A flight sitting at the south pole. -/
def southPoleFlight : Flight :=
  { id := "s", latest := some southPolePoint, track := [southPolePoint] }

/-- A feed in which the same balloon is observed in hours 0–4 and the
remaining 19 hours are unavailable: its history has five points, so the
track is downsampled. -/
def fiveHourSnaps : List (Option (List RawRecord)) :=
  [wSnap, wSnap, wSnap, wSnap, wSnap] ++ List.replicate 19 none

/-- The object `{flights: [], fires: [], bounds: null}` the no-flights
early return of `buildScene` produces: its `generated_at` is absent. -/
def emptyScene : Scene :=
  { flights := [], fires := [], bounds := none, generated_at := none }

/-- A concrete cached scene used by witnesses. -/
def wScene1 : Scene :=
  { flights := [], fires := [], bounds := none, generated_at := some 1 }

/-- A concrete freshly built scene used by witnesses. -/
def wScene2 : Scene :=
  { flights := [], fires := [], bounds := none, generated_at := some 2 }

/-! ## Helper lemmas -/

theorem downsample_sublist {α : Type} (arr : List α) (every : ℕ) :
    List.Sublist (downsample arr every) arr := by
  unfold downsample
  split
  · exact List.Sublist.refl _
  · have h1 : List.Sublist
        ((arr.enum.filter (fun p => jsModZero p.1 every)).map Prod.snd)
        (arr.enum.map Prod.snd) :=
      List.Sublist.map _ (List.filter_sublist _)
    rwa [List.enum_map_snd] at h1

theorem downsample_head_length {α : Type} (arr : List α) (every : ℕ)
    (hev : 0 < every) (hne : arr ≠ []) :
    (downsample arr every).head? = arr.head? ∧
      1 ≤ (downsample arr every).length := by
  unfold downsample
  split
  · exact ⟨rfl, List.length_pos.mpr hne⟩
  · match arr, hne with
    | a :: rest, _ =>
      have hev' : ¬ every = 0 := by omega
      have hkeep : jsModZero 0 every = true := by
        simp [jsModZero, hev']
      simp [List.enum_cons, hkeep]

theorem jsonRepresentable_getD (elems : List JSVal)
    (h : elems.all jsonRepresentable = true) (i : ℕ) :
    jsonRepresentable (elems.getD i .undefined) = true := by
  induction elems generalizing i with
  | nil => rfl
  | cons v vs ih =>
    rcases List.all_eq_true.mp h v (List.mem_cons_self _ _) with hv
    cases i with
    | zero => simpa using hv
    | succ j =>
      have h' : vs.all jsonRepresentable = true :=
        List.all_eq_true.mpr fun x hx =>
          List.all_eq_true.mp h x (List.mem_cons_of_mem _ hx)
      simpa using ih h' j

theorem jsonRepresentable_coalesce {a b : JSVal}
    (ha : jsonRepresentable a = true) (hb : jsonRepresentable b = true) :
    jsonRepresentable (jsCoalesce a b) = true := by
  cases a <;> simp_all [jsCoalesce]

theorem isJSNumber_eq_isFinite_of_json {v : JSVal}
    (h : jsonRepresentable v = true) : isJSNumber v = isFiniteNumber v := by
  cases v with
  | num n => cases n <;> simp_all [jsonRepresentable, isJSNumber, isFiniteNumber]
  | _ => rfl

theorem closestFire_nil (dist : Fire → ℚ) : closestFire dist [] = none := rfl

/-! ## Claim C9 -/

/-- C9: `downsample` returns tracks of at most 3 points unchanged, and
(for a positive sampling stride, as in the pipeline's call
`downsample(points, 3)`) it never drops the first point of a track and
never shrinks a non-empty track below one point. -/
theorem C9_downsample_preserves_head (arr : List Point) (every : ℕ)
    (hev : 0 < every) :
    (arr.length ≤ 3 → downsample arr every = arr) ∧
      (arr ≠ [] → (downsample arr every).head? = arr.head? ∧
        1 ≤ (downsample arr every).length) := by
  constructor
  · intro h3
    unfold downsample
    exact if_pos h3
  · intro hne
    exact downsample_head_length arr every hev hne

/-- C9 witness: the pipeline's stride 3 on a concrete one-point track. -/
theorem C9_downsample_preserves_head_witness :
    downsample [wPoint] 3 = [wPoint] ∧
      (downsample [wPoint] 3).head? = [wPoint].head? ∧
        1 ≤ (downsample [wPoint] 3).length :=
  ⟨(C9_downsample_preserves_head [wPoint] 3 (by decide)).1 (by decide),
    (C9_downsample_preserves_head [wPoint] 3 (by decide)).2 (by decide)⟩

/-! ## Claim C2 -/

theorem suppliesNumericCoords_eq_finite_of_json {raw : RawRecord}
    (h : recordFromJSON raw = true) :
    suppliesNumericCoords raw = suppliesFiniteCoords raw := by
  cases raw with
  | nullish => rfl
  | arr elems =>
    simp only [suppliesNumericCoords, suppliesFiniteCoords]
    rw [isJSNumber_eq_isFinite_of_json
        (jsonRepresentable_getD elems h 0),
      isJSNumber_eq_isFinite_of_json (jsonRepresentable_getD elems h 1)]
  | obj oid olat olatitude olon olongitude oalt oaltitude =>
    simp only [recordFromJSON, Bool.and_eq_true] at h
    simp only [suppliesNumericCoords, suppliesFiniteCoords]
    rw [isJSNumber_eq_isFinite_of_json
        (jsonRepresentable_coalesce h.1.1.1.1.1.2 h.1.1.1.1.2),
      isJSNumber_eq_isFinite_of_json
        (jsonRepresentable_coalesce h.1.1.1.2 h.1.1.2)]

/-- C2 counterexample: the array-shape record `[NaN, 20]` does not
supply two finite numeric coordinates, yet `normalizePoint` yields a
Point for it — the code checks `typeof` only, and
`typeof NaN === "number"`. -/
theorem C2_counterexample_nan_accepted :
    suppliesFiniteCoords
        (RawRecord.arr [.num .nan, .num (.finite 20)]) = false ∧
      (normalizePoint (RawRecord.arr [.num .nan, .num (.finite 20)])
          0 0).isSome = true := by
  decide

/-- C2 amended: `normalizePoint` yields exactly one Point if and only if
the record supplies two coordinates of `typeof` `"number"` via either
accepted shape — finiteness is not checked.  Restricted to
JSON-representable records (and every record delivered by `res.json()`
is such, JSON having no non-finite literals), numeric coincides with
finite numeric, and the original claim's equivalence holds. -/
theorem C2_amended_numeric_iff (raw : RawRecord) (ts : Int) (idx : ℕ) :
    (normalizePoint raw ts idx).isSome = suppliesNumericCoords raw ∧
      (recordFromJSON raw = true →
        (normalizePoint raw ts idx).isSome = suppliesFiniteCoords raw) := by
  have hnum : (normalizePoint raw ts idx).isSome = suppliesNumericCoords raw := by
    cases raw with
    | nullish => rfl
    | arr elems =>
      simp only [normalizePoint, suppliesNumericCoords]
      split
      · rename_i la lo heq
        simp_all [isJSNumber]
      · rename_i hne
        rcases h0 : elems.getD 0 .undefined with n0 | s0 | b0 | _ | _ | _ <;>
          rcases h1 : elems.getD 1 .undefined with n1 | s1 | b1 | _ | _ | _ <;>
            simp_all [isJSNumber]
    | obj oid olat olatitude olon olongitude oalt oaltitude =>
      simp only [normalizePoint, suppliesNumericCoords]
      split
      · rename_i la lo heq
        simp_all [isJSNumber]
      · rename_i hne
        rcases h0 : jsCoalesce olat olatitude with n0 | s0 | b0 | _ | _ | _ <;>
          rcases h1 : jsCoalesce olon olongitude with n1 | s1 | b1 | _ | _ | _ <;>
            simp_all [isJSNumber]
  exact ⟨hnum, fun hj => hnum.trans (suppliesNumericCoords_eq_finite_of_json hj)⟩

/-- C2 witness: a well-formed tuple record is accepted under both
formulations. -/
theorem C2_amended_numeric_iff_witness :
    (normalizePoint (RawRecord.arr [.num (.finite 10), .num (.finite 20)])
        0 0).isSome =
      suppliesNumericCoords
        (RawRecord.arr [.num (.finite 10), .num (.finite 20)]) ∧
    (normalizePoint (RawRecord.arr [.num (.finite 10), .num (.finite 20)])
        0 0).isSome =
      suppliesFiniteCoords
        (RawRecord.arr [.num (.finite 10), .num (.finite 20)]) :=
  ⟨(C2_amended_numeric_iff _ 0 0).1,
    (C2_amended_numeric_iff
      (RawRecord.arr [.num (.finite 10), .num (.finite 20)]) 0 0).2
      (by decide)⟩

/-! ## Claim C3 -/

/-- C3: a read that finds a cached scene younger than the 5-minute TTL
returns it unchanged (same `generated_at`, cache untouched); a read that
finds no cached scene, or one at least the TTL old, and whose rebuild
produces `scene`, stores `scene` together with the request time as the
new cache state — the whole scene is replaced in one step — and returns
it. -/
theorem C3_cache_ttl (st : CacheState) (now : Int) (build : Option Scene) :
    (∀ s, st.cachedScene = some s → now - st.lastSceneTime < sceneTTL →
      handleSceneRequest st now build = (.ok s, st)) ∧
    (∀ scene, build = some scene →
      (st.cachedScene = none ∨ sceneTTL ≤ now - st.lastSceneTime) →
      handleSceneRequest st now build =
        (.ok scene, { cachedScene := some scene, lastSceneTime := now })) := by
  constructor
  · intro s hs hfresh
    simp [handleSceneRequest, hs, hfresh]
  · intro scene hb hstale
    rcases hstale with hnone | hold
    · simp [handleSceneRequest, hnone, hb]
    · cases hc : st.cachedScene with
      | none => simp [handleSceneRequest, hc, hb]
      | some s => simp [handleSceneRequest, hc, hb, not_lt.mpr hold]

/-- C3 witness: a fresh hit returns the cached scene; a cold miss
stores and returns the freshly built one. -/
theorem C3_cache_ttl_witness :
    handleSceneRequest { cachedScene := some wScene1, lastSceneTime := 100 }
        101 (some wScene2) =
      (.ok wScene1,
        { cachedScene := some wScene1, lastSceneTime := 100 }) ∧
    handleSceneRequest { cachedScene := none, lastSceneTime := 0 } 5
        (some wScene2) =
      (.ok wScene2, { cachedScene := some wScene2, lastSceneTime := 5 }) :=
  ⟨(C3_cache_ttl _ 101 _).1 _ rfl (by decide),
    (C3_cache_ttl _ 5 _).2 _ rfl (Or.inl rfl)⟩

/-! ## Claim C5 -/

/-- C5: when the awaited `buildScene()` rejects, the handler leaves both
cache variables exactly as they were — there is no partially-updated
state — and (whenever the failing build was actually run, i.e. the
cache was cold or expired) the client receives the generic 500
response. -/
theorem C5_error_keeps_cache (st : CacheState) (now : Int) :
    (handleSceneRequest st now none).2 = st ∧
      ((st.cachedScene = none ∨ sceneTTL ≤ now - st.lastSceneTime) →
        (handleSceneRequest st now none).1 = .error500) := by
  constructor
  · cases hc : st.cachedScene with
    | none => simp [handleSceneRequest, hc]
    | some s =>
      by_cases hfresh : now - st.lastSceneTime < sceneTTL <;>
        simp [handleSceneRequest, hc, hfresh]
  · intro hstale
    rcases hstale with hnone | hold
    · simp [handleSceneRequest, hnone]
    · cases hc : st.cachedScene with
      | none => simp [handleSceneRequest, hc]
      | some s => simp [handleSceneRequest, hc, not_lt.mpr hold]

/-- C5 witness: a cold-cache request whose build fails yields the 500
response and an unchanged (still empty) cache. -/
theorem C5_error_keeps_cache_witness :
    (handleSceneRequest { cachedScene := none, lastSceneTime := 0 } 7
        none).2 = { cachedScene := none, lastSceneTime := 0 } ∧
      (handleSceneRequest { cachedScene := none, lastSceneTime := 0 } 7
        none).1 = .error500 :=
  ⟨(C5_error_keeps_cache _ 7).1, (C5_error_keeps_cache _ 7).2 (Or.inl rfl)⟩

/-! ## Claim C6 -/

/-- C6 evaluation at the failing input: when every hourly snapshot is
unavailable, no flights are reconstructed and `buildScene` returns the
early `{flights: [], fires: [], bounds: null}` object, whose
`generated_at` is absent — contradicting the spec's Scene shape, which
always carries `generated_at`. -/
theorem C6_empty_scene_lacks_generated_at :
    buildScene (List.replicate 24 none) 0 0 (fun _ => []) (fun _ _ => 0) =
      some { flights := [], fires := [], bounds := none,
             generated_at := none } := by
  rfl

/-! ## Claim C7 -/

/-- C7: with an empty fire set, every flight the correlator returns has
`fire_summary.min_distance_km = null` and
`fire_summary.closest_fire = null` — `minDist` stays `Infinity`, which
`isFinite` rejects, and `closest` stays `null`. -/
theorem C7_empty_fires_null_summary (dist : Point → Fire → ℚ)
    (flights : List Flight) (out : List SummFlight)
    (h : summarizeFlights dist flights [] = some out) :
    ∀ sf ∈ out, sf.fire_summary.min_distance_km = none ∧
      sf.fire_summary.closest_fire = none := by
  induction flights generalizing out with
  | nil =>
    simp only [summarizeFlights, Option.some.injEq] at h
    subst h
    intro sf hsf
    exact absurd hsf (List.not_mem_nil sf)
  | cons f fs ih =>
    simp only [summarizeFlights] at h
    cases hl : f.latest with
    | none => rw [hl] at h; exact absurd h (by simp)
    | some latest =>
      rw [hl] at h
      cases hr : summarizeFlights dist fs [] with
      | none => rw [hr] at h; exact absurd h (by simp)
      | some rest =>
        rw [hr] at h
        simp only [Option.some.injEq] at h
        subst h
        intro sf hsf
        rcases List.mem_cons.mp hsf with heq | hmem
        · subst heq
          simp [closestFire_nil]
        · exact ih rest hr sf hmem

/-- C7 witness: one concrete flight correlated against no fires. -/
theorem C7_empty_fires_null_summary_witness :
    wSummFlight.fire_summary.min_distance_km = none ∧
      wSummFlight.fire_summary.closest_fire = none :=
  C7_empty_fires_null_summary (fun _ _ => 0) [wFlight] [wSummFlight] rfl
    wSummFlight (List.mem_singleton.mpr rfl)

/-! ## Non-empty histories: shared lemmas for C1 and C10 -/

theorem pushPoint_nonempty {h : Histories} (pt : Point)
    (ih : ∀ kv ∈ h, kv.2 ≠ []) : ∀ kv ∈ pushPoint h pt, kv.2 ≠ [] := by
  induction h with
  | nil =>
    intro kv hkv
    simp only [pushPoint, List.mem_singleton] at hkv
    subst hkv
    simp
  | cons e rest ihr =>
    intro kv hkv
    obtain ⟨k, v⟩ := e
    simp only [pushPoint] at hkv
    split at hkv
    · rcases List.mem_cons.mp hkv with heq | hmem
      · subst heq; simp
      · exact ih _ (List.mem_cons_of_mem _ hmem)
    · rcases List.mem_cons.mp hkv with heq | hmem
      · subst heq; exact ih _ (List.mem_cons_self _ _)
      · exact ihr (fun kv' hkv' => ih kv' (List.mem_cons_of_mem _ hkv')) kv hmem

theorem foldl_normalize_nonempty (recs : List (ℕ × RawRecord)) (ts : Int)
    (h : Histories) (ih : ∀ kv ∈ h, kv.2 ≠ []) :
    ∀ kv ∈ recs.foldl (fun h' iraw =>
      match normalizePoint iraw.2 ts iraw.1 with
      | none => h'
      | some pt => pushPoint h' pt) h, kv.2 ≠ [] := by
  induction recs generalizing h with
  | nil => exact ih
  | cons r rs ihr =>
    simp only [List.foldl_cons]
    cases hn : normalizePoint r.2 ts r.1 with
    | none => simpa [hn] using ihr h ih
    | some pt => simpa [hn] using ihr _ (pushPoint_nonempty pt ih)

theorem addSnapshot_nonempty (now : Int) (h : Histories) (hour : ℕ)
    (snap : Option (List RawRecord)) (ih : ∀ kv ∈ h, kv.2 ≠ []) :
    ∀ kv ∈ addSnapshot now h hour snap, kv.2 ≠ [] := by
  cases snap with
  | none => exact ih
  | some records =>
    exact foldl_normalize_nonempty records.enum _ h ih

theorem buildHistories_nonempty (snapshots : List (Option (List RawRecord)))
    (now : Int) : ∀ kv ∈ buildHistories snapshots now, kv.2 ≠ [] := by
  unfold buildHistories
  generalize (∅ : List (String × List Point)) = init
  have : ∀ (l : List (ℕ × Option (List RawRecord))) (h : Histories),
      (∀ kv ∈ h, kv.2 ≠ []) →
      ∀ kv ∈ l.foldl (fun h' hs => addSnapshot now h' hs.1 hs.2) h,
        kv.2 ≠ [] := by
    intro l
    induction l with
    | nil => intro h ih; exact ih
    | cons x xs ihl =>
      intro h ih
      simp only [List.foldl_cons]
      exact ihl _ (addSnapshot_nonempty now h x.1 x.2 ih)
  exact this snapshots.enum [] (by simp)

theorem sorted_getLast?_max {l : List Point} (hs : List.Sorted tsLE l)
    {m : Point} (hm : l.getLast? = some m) :
    ∀ p ∈ l, p.timestamp ≤ m.timestamp := by
  induction l with
  | nil => simp at hm
  | cons a rest ih =>
    intro p hp
    cases rest with
    | nil =>
      simp only [List.getLast?_singleton, Option.some.injEq] at hm
      rcases List.mem_singleton.mp hp with rfl
      rw [hm]
    | cons b t =>
      rw [List.getLast?_cons_cons] at hm
      rcases List.mem_cons.mp hp with rfl | hmem
      · have hm' : m ∈ b :: t := List.mem_of_getLast?_eq_some hm
        exact List.rel_of_sorted_cons hs m hm'
      · exact ih (List.sorted_cons.mp hs).2 hm p hmem

/-- Each flight produced by `loadBalloonFlights` comes from a non-empty,
sorted history: its `latest` is defined, is the maximum-timestamp point
of the sorted history, and its track is a non-empty sorted sublist of
that history. -/
theorem loadBalloonFlights_flight_shape (snapshots : List (Option (List RawRecord)))
    (now : Int) : ∀ f ∈ loadBalloonFlights snapshots now,
      List.Sorted tsLE f.track ∧ f.track ≠ [] ∧
        ∃ lp, f.latest = some lp ∧
          ∀ p ∈ f.track, p.timestamp ≤ lp.timestamp := by
  intro f hf
  unfold loadBalloonFlights at hf
  rcases List.mem_map.mp hf with ⟨kv, hkv, hfe⟩
  have hne : kv.2 ≠ [] := buildHistories_nonempty snapshots now kv hkv
  have hsortne : List.insertionSort tsLE kv.2 ≠ [] := by
    intro hcontra
    have hlen := (List.perm_insertionSort tsLE kv.2).length_eq
    rw [hcontra] at hlen
    exact hne (List.length_eq_zero.mp hlen.symm)
  have hsorted : List.Sorted tsLE (List.insertionSort tsLE kv.2) :=
    List.sorted_insertionSort tsLE kv.2
  obtain ⟨m, hm⟩ := Option.isSome_iff_exists.mp
    (List.getLast?_isSome.mpr hsortne)
  have hsub : List.Sublist (downsample (List.insertionSort tsLE kv.2) 3)
      (List.insertionSort tsLE kv.2) := downsample_sublist _ 3
  subst hfe
  refine ⟨List.Pairwise.sublist hsub hsorted, ?_, m, hm, ?_⟩
  · intro hcontra
    have hcontra' : downsample (List.insertionSort tsLE kv.2) 3 = [] := hcontra
    have := (downsample_head_length (List.insertionSort tsLE kv.2) 3
      (by decide) hsortne).2
    rw [hcontra'] at this
    simp at this
  · intro p hp
    exact sorted_getLast?_max hsorted hm p (hsub.subset hp)

/-! ## Claim C10 -/

theorem summarizeFlights_isSome (dist : Point → Fire → ℚ)
    (flights : List Flight) (fires : List Fire)
    (h : ∀ f ∈ flights, f.latest.isSome = true) :
    (summarizeFlights dist flights fires).isSome = true := by
  induction flights with
  | nil => rfl
  | cons f fs ih =>
    simp only [summarizeFlights]
    obtain ⟨latest, hl⟩ := Option.isSome_iff_exists.mp
      (h f (List.mem_cons_self _ _))
    rw [hl]
    have hr := ih (fun g hg => h g (List.mem_cons_of_mem _ hg))
    obtain ⟨rest, hrest⟩ := Option.isSome_iff_exists.mp hr
    rw [hrest]
    simp

/-- C10: every flight emitted by the reconstruction has a non-empty
track and a defined `latest`, so the correlator's reads of
`latest.lat` / `latest.lon` never hit an absent value: `summarizeFlights`
applied to a reconstructed flight list never raises (never returns the
`none` that models the `TypeError`). -/
theorem C10_latest_always_defined (snapshots : List (Option (List RawRecord)))
    (now : Int) (fires : List Fire) (dist : Point → Fire → ℚ) :
    (∀ f ∈ loadBalloonFlights snapshots now,
      f.latest.isSome = true ∧ f.track ≠ []) ∧
    (summarizeFlights dist (loadBalloonFlights snapshots now) fires).isSome
      = true := by
  have hshape := loadBalloonFlights_flight_shape snapshots now
  constructor
  · intro f hf
    obtain ⟨-, htne, lp, hlp, -⟩ := hshape f hf
    exact ⟨by simp [hlp], htne⟩
  · refine summarizeFlights_isSome dist _ fires fun f hf => ?_
    obtain ⟨-, -, lp, hlp, -⟩ := hshape f hf
    simp [hlp]

/-- C10 witness: a one-snapshot feed with one record; its reconstructed
flight has a defined `latest` and the correlation run succeeds. -/
theorem C10_latest_always_defined_witness :
    (wFlightB.latest.isSome = true ∧ wFlightB.track ≠ []) ∧
      (summarizeFlights (fun _ _ => 0) (loadBalloonFlights wSnaps 0)
        []).isSome = true :=
  ⟨(C10_latest_always_defined wSnaps 0 [] (fun _ _ => 0)).1 wFlightB
      (by decide),
    (C10_latest_always_defined wSnaps 0 [] (fun _ _ => 0)).2⟩

/-! ## Claim C1 -/

/-- C1 counterexample: with the same balloon observed in hours 0–4, its
five-point sorted history is downsampled to the indices 0 and 3, while
`latest` is taken from the last slot (index 4) of the pre-downsample
sorted array — so the scene build produces a flight whose `latest` is
not the last element of its `track` (it is not in the track at all). -/
theorem C1_counterexample_latest_not_last :
    ∃ f ∈ loadBalloonFlights fiveHourSnaps 0,
      ¬ (f.latest = f.track.getLast?) := by
  decide

/-- C1 amended: every flight's track is sorted non-decreasing by
timestamp, and `latest` is defined and is the maximum-timestamp element
of the *pre-downsample* sorted history, so its timestamp bounds every
track point's timestamp — but when the track was downsampled, `latest`
need not equal (or even appear as) the last track element. -/
theorem C1_track_sorted_latest_max (snapshots : List (Option (List RawRecord)))
    (now : Int) : ∀ f ∈ loadBalloonFlights snapshots now,
      List.Sorted tsLE f.track ∧
        ∃ lp, f.latest = some lp ∧
          ∀ p ∈ f.track, p.timestamp ≤ lp.timestamp := by
  intro f hf
  obtain ⟨hsorted, -, lp, hlp, hmax⟩ :=
    loadBalloonFlights_flight_shape snapshots now f hf
  exact ⟨hsorted, lp, hlp, hmax⟩

/-- C1 witness: the flight reconstructed from a one-hour feed. -/
theorem C1_track_sorted_latest_max_witness :
    List.Sorted tsLE wFlightB.track ∧
      ∃ lp, wFlightB.latest = some lp ∧
        ∀ p ∈ wFlightB.track, p.timestamp ≤ lp.timestamp :=
  C1_track_sorted_latest_max wSnaps 0 wFlightB (by decide)

/-! ## Claim C4 -/

theorem scanBounds_eq_flat (flights : List Flight) :
    scanBounds flights =
      (flights.flatMap (fun f => f.track)).foldl boundsStep scanInit := by
  unfold scanBounds
  generalize scanInit = init
  induction flights generalizing init with
  | nil => rfl
  | cons f fs ih => simp [List.flatMap_cons, List.foldl_append, ih]

theorem pointInOpenBox_elim {p : Point} (h : pointInOpenBox p = true) :
    ∃ la lo : ℚ, p.lat = .finite la ∧ p.lon = .finite lo ∧
      -90 < la ∧ la < 90 ∧ -180 < lo ∧ lo < 180 := by
  cases hla : p.lat <;> cases hlo : p.lon <;>
    simp_all [pointInOpenBox, jsLt]

theorem step_inv_strong {b : Bounds} {p : Point} (hb : AccInv b)
    (hp : pointInOpenBox p = true) : AccStrong (boundsStep b p) := by
  obtain ⟨a, c, e, g, rfl, ha1, ha2, hc1, hc2, he1, he2, hg1, hg2⟩ := hb
  obtain ⟨la, lo, hla, hlo, hla1, hla2, hlo1, hlo2⟩ := pointInOpenBox_elim hp
  refine ⟨min a la, max c la, min e lo, max g lo, ?_, ?_, ?_, ?_, ?_, ?_,
    ?_, ?_, ?_, ?_, ?_⟩
  · simp [boundsStep, hla, hlo, jsMin, jsMax]
  · exact lt_min ha1 hla1
  · exact min_lt_of_right_lt hla2
  · exact lt_max_of_lt_right hla1
  · exact max_lt hc2 hla2
  · exact le_trans (min_le_right a la) (le_max_right c la)
  · exact lt_min he1 hlo1
  · exact min_lt_of_right_lt hlo2
  · exact lt_max_of_lt_right hlo1
  · exact max_lt hg2 hlo2
  · exact le_trans (min_le_right e lo) (le_max_right g lo)

theorem accStrong_inv {b : Bounds} (h : AccStrong b) : AccInv b := by
  obtain ⟨a, c, e, g, rfl, ha1, ha2, hc1, hc2, hac, he1, he2, hg1, hg2, heg⟩ := h
  exact ⟨a, c, e, g, rfl, ha1, le_of_lt ha2, le_of_lt hc1, hc2,
    he1, le_of_lt he2, le_of_lt hg1, hg2⟩

theorem fold_boundsStep_strong (pts : List Point) :
    ∀ b : Bounds, AccInv b → pts ≠ [] →
      (∀ p ∈ pts, pointInOpenBox p = true) →
      AccStrong (pts.foldl boundsStep b) := by
  induction pts with
  | nil => intro b _ hne _; exact absurd rfl hne
  | cons p ps ih =>
    intro b hb _ hall
    simp only [List.foldl_cons]
    have hstep := step_inv_strong hb (hall p (List.mem_cons_self _ _))
    rcases eq_or_ne ps [] with rfl | hne'
    · exact hstep
    · exact ih _ (accStrong_inv hstep) hne'
        (fun q hq => hall q (List.mem_cons_of_mem _ hq))

/-- C4 counterexample: a single flight sitting exactly at the south
pole — a valid geographic coordinate — makes `computeBounds` produce
`minLat = maxLat = -89` (the lower pad hits the `-89` clamp and the
upper pad's `Math.min` also lands on `-89`), so a non-empty flight set
does not always satisfy `minLat < maxLat`. -/
theorem C4_counterexample_south_pole :
    [southPoleFlight] ≠ [] ∧
      (computeBounds [southPoleFlight]).minLat =
        (computeBounds [southPoleFlight]).maxLat ∧
      jsLt (computeBounds [southPoleFlight]).minLat
        (computeBounds [southPoleFlight]).maxLat = false := by
  refine ⟨by decide, ?_, ?_⟩ <;>
    norm_num [computeBounds, scanBounds, scanInit, southPoleFlight,
      southPolePoint, boundsStep, jsMin, jsMax, jsSub, jsAdd, jsNeg, jsLt,
      min_def, max_def]

/-- C4 amended: for flights that together contain at least one point and
all of whose track points lie strictly inside the valid geographic
range, the computed region satisfies `minLat < maxLat`, `minLon <
maxLon`, and all four components lie in the clamped valid range; points
exactly on the poles/antimeridian (or outside the range, which the
normalizer does not exclude) can defeat this.  For an empty flight set,
`buildScene` returns the scene with `bounds: null` — no region. -/
theorem C4_bounds_well_formed :
    (∀ flights : List Flight, (∃ f ∈ flights, f.track ≠ []) →
      (∀ f ∈ flights, ∀ p ∈ f.track, pointInOpenBox p = true) →
      boundsWellFormed (computeBounds flights) = true) ∧
    (∀ snapshots now buildTime fireFeed dist,
      loadBalloonFlights snapshots now = [] →
      ∃ sc, buildScene snapshots now buildTime fireFeed dist = some sc ∧
        sc.bounds = none) := by
  constructor
  · intro flights hex hall
    have hne : flights.flatMap (fun f => f.track) ≠ [] := by
      obtain ⟨f, hf, htne⟩ := hex
      obtain ⟨p, hp⟩ := List.exists_mem_of_ne_nil _ htne
      exact List.ne_nil_of_mem (List.mem_flatMap.mpr ⟨f, hf, hp⟩)
    have hstrong : AccStrong (scanBounds flights) := by
      rw [scanBounds_eq_flat]
      refine fold_boundsStep_strong _ _ ?_ hne ?_
      · exact ⟨90, -90, 180, -180, rfl, by norm_num, by norm_num,
          by norm_num, by norm_num, by norm_num, by norm_num,
          by norm_num, by norm_num⟩
      · intro p hp
        obtain ⟨f, hf, hpf⟩ := List.mem_flatMap.mp hp
        exact hall f hf p hpf
    obtain ⟨a, c, e, g, heq, ha1, ha2, hc1, hc2, hac, he1, he2, hg1,
      hg2, heg⟩ := hstrong
    unfold computeBounds
    rw [heq]
    simp only [jsSub, jsNeg, jsAdd, jsMax, jsMin, boundsWellFormed, jsLt,
      jsLe, Bool.and_eq_true, decide_eq_true_eq]
    refine ⟨⟨⟨⟨⟨⟨⟨⟨⟨?_, ?_⟩, ?_⟩, ?_⟩, ?_⟩, ?_⟩, ?_⟩, ?_⟩, ?_⟩, ?_⟩
    · exact max_lt_iff.mpr ⟨lt_min_iff.mpr ⟨by linarith, by linarith⟩,
        lt_min_iff.mpr ⟨by linarith, by norm_num⟩⟩
    · exact max_lt_iff.mpr ⟨lt_min_iff.mpr ⟨by linarith, by linarith⟩,
        lt_min_iff.mpr ⟨by linarith, by norm_num⟩⟩
    · exact le_max_right _ _
    · exact max_le_iff.mpr ⟨by linarith, by norm_num⟩
    · exact le_min_iff.mpr ⟨by linarith, by norm_num⟩
    · exact min_le_right _ _
    · exact le_max_right _ _
    · exact max_le_iff.mpr ⟨by linarith, by norm_num⟩
    · exact le_min_iff.mpr ⟨by linarith, by norm_num⟩
    · exact min_le_right _ _
  · intro snapshots now buildTime fireFeed dist h
    refine ⟨emptyScene, ?_, rfl⟩
    simp [buildScene, h, emptyScene]

/-- C4 witness: one in-range flight gives a well-formed region; an
empty feed gives no region. -/
theorem C4_bounds_well_formed_witness :
    boundsWellFormed (computeBounds [wFlightB]) = true ∧
      ∃ sc, buildScene [] 0 0 (fun _ => []) (fun _ _ => 0) = some sc ∧
        sc.bounds = none :=
  ⟨C4_bounds_well_formed.1 [wFlightB]
      ⟨wFlightB, List.mem_singleton.mpr rfl, by decide⟩ (by decide),
    C4_bounds_well_formed.2 [] 0 0 (fun _ => []) (fun _ _ => 0) rfl⟩

/-! ## Claim C8 -/

theorem sin_half_sq_symm (x y : ℝ) :
    Real.sin ((x - y) * Real.pi / 180 / 2) ^ 2 =
      Real.sin ((y - x) * Real.pi / 180 / 2) ^ 2 := by
  have h : (x - y) * Real.pi / 180 / 2 = -((y - x) * Real.pi / 180 / 2) := by
    ring
  rw [h, Real.sin_neg, neg_sq]

/-- C8: the haversine distance of the code, read over the exact reals
(radius 6371 km, degree inputs, kilometre outputs), is symmetric in its
two coordinate pairs, and the distance from any point to itself is 0. -/
theorem C8_haversine_symm_self (lat1 lon1 lat2 lon2 : ℝ) :
    haversineKm lat1 lon1 lat2 lon2 = haversineKm lat2 lon2 lat1 lon1 ∧
      haversineKm lat1 lon1 lat1 lon1 = 0 := by
  constructor
  · simp only [haversineKm]
    have hA : Real.sin ((lat2 - lat1) * Real.pi / 180 / 2) ^ 2 +
        Real.cos (lat1 * Real.pi / 180) * Real.cos (lat2 * Real.pi / 180) *
          Real.sin ((lon2 - lon1) * Real.pi / 180 / 2) ^ 2 =
        Real.sin ((lat1 - lat2) * Real.pi / 180 / 2) ^ 2 +
          Real.cos (lat2 * Real.pi / 180) * Real.cos (lat1 * Real.pi / 180) *
            Real.sin ((lon1 - lon2) * Real.pi / 180 / 2) ^ 2 := by
      rw [sin_half_sq_symm lat2 lat1, sin_half_sq_symm lon2 lon1,
        mul_comm (Real.cos (lat1 * Real.pi / 180))
          (Real.cos (lat2 * Real.pi / 180))]
    rw [hA]
  · simp only [haversineKm]
    have hz : (lat1 - lat1) * Real.pi / 180 / 2 = 0 := by ring
    have hz' : (lon1 - lon1) * Real.pi / 180 / 2 = 0 := by ring
    rw [hz, hz', Real.sin_zero]
    norm_num [jsAtan2]
    have hone : (⟨1, 0⟩ : ℂ) = (1 : ℂ) := by
      apply Complex.ext <;> simp
    rw [hone, Complex.arg_one]

end BalloonsBlazes
